import Mathlib

/-!
Verification development for the symfc-alm data-adaptation layer.

The development shallowly embeds the module `symfc_alm.py`: the dataset
loader `read_dataset`, the value objects `DispForceDataset` and
`CellDataset`, and the solver driver `SymfcAlm` with its force-constant
reindexing loop `_extract_fc_from_alm`.  NumPy arrays are modelled as a
shape together with a row-major flat data list; the double-precision
values carried by the arrays are never combined arithmetically by the
embedded code, so they are represented by rationals.  The external ALM
solver is modelled as an oracle supplying the outcome of each of its
calls, and Python `with` blocks are modelled by an acquire/release event
trace.
-/

/-- Values held by the arrays (the code only moves them around). -/
abbrev Val := ℚ

/-- A NumPy array: a shape and the row-major flat data. -/
structure NDArray where
  shape : List Nat
  data : List Val
deriving Repr, DecidableEq

/-- Total number of elements, as NumPy computes it from the shape. -/
def NDArray.size (a : NDArray) : Nat := a.shape.prod

/-- Python exceptions raised by the embedded code. -/
inductive PyError where
  | runtimeError (msg : String)
  | typeError (msg : String)
  | indexError (msg : String)
  | valueError (msg : String)
deriving Repr, DecidableEq

/-- Whether an `Except` computation succeeded. -/
def exceptIsOk {α : Type} (r : Except PyError α) : Bool :=
  match r with
  | .ok _ => true
  | .error _ => false

/-- List of the first `n` values of `f`, in order. -/
def tabulate (n : Nat) (f : Nat → Val) : List Val := (List.range n).map f

/-- Embedding of `np.loadtxt(...).reshape(-1, 64, 6)`: succeeds exactly when
the total element count is a multiple of 384 and keeps the flat data. -/
def reshape646 (a : NDArray) : Except PyError NDArray :=
  if a.size % 384 = 0 then .ok ⟨[a.size / 384, 64, 6], a.data⟩
  else .error (.valueError "cannot reshape array into shape (-1,64,6)")

/-- Embedding of the NumPy basic slice `a[:, :, off:off+width]` on a
three-dimensional array. -/
def sliceLastAxis (a : NDArray) (off width : Nat) : NDArray :=
  match a.shape with
  | [m, n, c] =>
      ⟨[m, n, width],
        tabulate (m * n * width) (fun t => a.data.getD ((t / width) * c + (off + t % width)) 0)⟩
  | s => ⟨s, a.data⟩

/-- Displacements-forces dataset (`DispForceDataset`). -/
structure DispForceDataset where
  displacements : NDArray
  forces : NDArray
deriving Repr, DecidableEq

/-- Embedding of `DispForceDataset.__init__`: the constructor converts the
inputs to double arrays and stores them without any shape validation. -/
def DispForceDataset.init (displacements forces : NDArray) : DispForceDataset :=
  ⟨displacements, forces⟩

/-- Embedding of the parsing core of `read_dataset`: reshape the parsed
flat table to `(-1, 64, 6)`, split columns 0-2 as displacements and
columns 3-5 as forces. -/
def read_dataset (table : NDArray) : Except PyError DispForceDataset :=
  match reshape646 table with
  | .error e => .error e
  | .ok d => .ok (DispForceDataset.init (sliceLastAxis d 0 3) (sliceLastAxis d 3 3))

/-- Which stream module `read_dataset` opens a path with. -/
inductive StreamMode where
  | lzma
  | plain
deriving Repr, DecidableEq

/-- Embedding of the suffix dispatch in `read_dataset`: `.xz` selects the
`lzma` module, anything else the plain `io` module. -/
def selectMode (suffix : String) : StreamMode :=
  if suffix = ".xz" then StreamMode.lzma else StreamMode.plain

/-- Embedding of the path branch of `read_dataset`: the chosen module opens
the file and the stream yields the logical (decompressed) content, which
`np.loadtxt` parses into `table`; both branches then run the same parse. -/
def read_dataset_file (suffix : String) (table : NDArray) : Except PyError DispForceDataset :=
  match selectMode suffix with
  | StreamMode.lzma => read_dataset table
  | StreamMode.plain => read_dataset table

/-- Crystal structure value object (`CellDataset`). -/
structure CellDataset where
  lattice : NDArray
  points : NDArray
  numbers : NDArray
deriving Repr, DecidableEq

/-- Python `len` on an array: the leading dimension, or a `TypeError` for a
zero-dimensional array. -/
def pyLen (a : NDArray) : Except PyError Nat :=
  match a.shape with
  | [] => .error (.typeError "len() of unsized object")
  | d :: _ => .ok d

/-- Python indexing into the shape tuple: `a.shape[i]`, raising `IndexError`
when the array has at most `i` dimensions. -/
def shapeIdx (a : NDArray) (i : Nat) : Except PyError Nat :=
  match a.shape[i]? with
  | some d => .ok d
  | none => .error (.indexError "tuple index out of range")

/-- Embedding of `CellDataset.__init__`: the three validation checks in
source order, after the dtype conversions (which keep shape and data). -/
def CellDataset.init (lattice points numbers : NDArray) : Except PyError CellDataset :=
  match pyLen numbers with
  | .error e => .error e
  | .ok nNumbers =>
    match pyLen points with
    | .error e => .error e
    | .ok nPoints =>
      if nNumbers ≠ nPoints then
        .error (.runtimeError "Shapes of numbers and points are inconsistent.")
      else
        match shapeIdx points 1 with
        | .error e => .error e
        | .ok d1 =>
          if d1 ≠ 3 then
            .error (.typeError "Shape of second dimension of points has to be 3.")
          else if lattice.shape ≠ [3, 3] then
            .error (.typeError "Shape of lattice has to be (3, 3).")
          else
            .ok ⟨lattice, points, numbers⟩

/-- Embedding of `np.zeros(shape)`. -/
def zerosArr (shape : List Nat) : NDArray := ⟨shape, List.replicate shape.prod (0 : Val)⟩

/-- Row-major flat offset of a multi-index in an array of the given shape. -/
def flatIndex (shape idx : List Nat) : Nat :=
  (shape.zip idx).foldl (fun acc p => acc * p.1 + p.2) 0

/-- Embedding of the element assignment `a[idx] = x`. -/
def NDArray.setAt (a : NDArray) (idx : List Nat) (x : Val) : NDArray :=
  ⟨a.shape, a.data.set (flatIndex a.shape idx) x⟩

/-- Embedding of `np.where(xs == v)[0]`: the positions of `xs` holding `v`,
in increasing order. -/
def npWhereEq (xs : List Nat) (v : Nat) : List Nat :=
  (xs.enum.filter (fun p => p.2 == v)).map Prod.fst

/-- Embedding of the body of the reindexing loop of `_extract_fc_from_alm`
for one `(fc_elem, indices)` pair: decode atoms and Cartesian components,
search `atom_list` for the first decoded atom, skip silently on no match,
otherwise write at `(idx[0],) + tuple(v[1:]) + tuple(c)`. -/
def writeFcEntry (atom_list : List Nat) (fc : NDArray) (entry : Val × List Nat) : NDArray :=
  match npWhereEq atom_list ((entry.2.map (fun i => i / 3)).headD 0) with
  | [] => fc
  | i0 :: _ =>
      fc.setAt
        (i0 :: ((entry.2.map (fun i => i / 3)).tail ++ entry.2.map (fun i => i % 3)))
        entry.1

/-- Embedding of `SymfcAlm._extract_fc_from_alm`.  `natom` is `len(self._cell)`
and `get_fc order` yields the pairs of `zip(*alm.get_fc(order, mode="all"))`. -/
def _extract_fc_from_alm (natom maxorder : Nat)
    (get_fc : Nat → List (Val × List Nat)) : List NDArray :=
  (List.range maxorder).map (fun k =>
    (get_fc (k + 1)).foldl (writeFcEntry (List.range natom))
      (zerosArr ((List.range natom).length ::
        (List.replicate (k + 1) natom ++ List.replicate (k + 1 + 1) 3))))

/-- First index of `v` in a list, the search the specification describes. -/
def findSlot : List Nat → Nat → Option Nat
  | [], _ => none
  | a :: rest, v => if a == v then some 0 else (findSlot rest v).map (fun i => i + 1)

/-- The per-entry reindexing step written from the specification text:
decode each flat index `i` into atom `i / 3` and component `i % 3`, search
the leading-atom list (the full atom range) for the first decoded atom
index, silently skip when absent, otherwise write the value at the matched
leading slot followed by the remaining atom indices and all components. -/
def specStep (natom : Nat) (fc : NDArray) (entry : Val × List Nat) : NDArray :=
  match findSlot (List.range natom) ((entry.2.map (fun i => i / 3)).headD 0) with
  | none => fc
  | some i0 =>
      fc.setAt
        (i0 :: ((entry.2.map (fun i => i / 3)).tail ++ entry.2.map (fun i => i % 3)))
        entry.1

/-- Modelled from the spec: the external solver's `define` method is not in
this repository; per the documented contract of `SymfcAlm.run`, an omitted
`nbody` (Python `None`) defaults to `[i + 2 for i in range(maxorder)]`. -/
def defineNbody (maxorder : Nat) (nbody : Option (List Nat)) : List Nat :=
  match nbody with
  | none => (List.range maxorder).map (fun i => i + 2)
  | some l => l

/-- The body-order sequence `SymfcAlm.run` configures the solver with: the
`nbody` argument is passed unchanged to `alm.define`. -/
def run_nbody (maxorder : Nat) (nbody : Option (List Nat)) : List Nat :=
  defineNbody maxorder nbody

/-- The body-order sequence `SymfcAlm.get_matrix_elements` configures the
solver with: the `nbody` argument is passed unchanged to `alm.define`. -/
def get_matrix_elements_nbody (maxorder : Nat) (nbody : Option (List Nat)) : List Nat :=
  defineNbody maxorder nbody

/-- Solver-handle lifecycle events. -/
inductive Event where
  | acquire
  | release
deriving Repr, DecidableEq, BEq

/-- Outcomes of the external solver's calls, supplied as an oracle. -/
structure SolverOracle where
  defineRes : Except PyError Unit
  constraintRes : Except PyError Unit
  matrixRes : Except PyError (NDArray × NDArray)
  pinvRes : Except PyError Unit
  setFcRes : Except PyError Unit
  get_fc : Nat → List (Val × List Nat)

/-- Embedding of `with ALM(...) as alm:`: the handle is acquired, the body
runs, and the handle is released whether the body succeeds or raises. -/
def withALM {α : Type} (body : Except PyError α) : Except PyError α × List Event :=
  (body, [Event.acquire, Event.release])

/-- Embedding of `SymfcAlm.get_matrix_elements` over the solver oracle,
tracking the solver-handle event trace. -/
def get_matrix_elements_tr (s : SolverOracle) :
    Except PyError (NDArray × NDArray) × List Event :=
  withALM (do
    let _ ← s.defineRes
    let _ ← s.constraintRes
    s.matrixRes)

/-- Embedding of `SymfcAlm.run` over the solver oracle: matrix elements,
pseudo-inverse solve, then a second solver session that sets the solved
coefficients and extracts the force constants. -/
def run_tr (s : SolverOracle) (natom maxorder : Nat) :
    Except PyError (List NDArray) × List Event :=
  match get_matrix_elements_tr s with
  | (.error e, ev) => (.error e, ev)
  | (.ok _, ev) =>
    match s.pinvRes with
    | .error e => (.error e, ev)
    | .ok _ =>
      match withALM (do
        let _ ← s.defineRes
        let _ ← s.constraintRes
        let _ ← s.setFcRes
        pure (_extract_fc_from_alm natom maxorder s.get_fc)) with
      | (r, ev2) => (r, ev ++ ev2)

/-- Shapes of the tensors returned by a successful `run`. -/
def runShapes (s : SolverOracle) (natom maxorder : Nat) : Option (List (List Nat)) :=
  ((run_tr s natom maxorder).1.toOption).map (fun l => l.map NDArray.shape)

/-- Scope checker for event traces: the counter of open handles never goes
negative and ends at zero. -/
def scopedAux : List Event → Nat → Bool
  | [], 0 => true
  | [], _ + 1 => false
  | Event.acquire :: t, n => scopedAux t (n + 1)
  | Event.release :: _, 0 => false
  | Event.release :: t, n + 1 => scopedAux t n

/-- Every acquired solver handle is released, in well-nested order. -/
def allHandlesReleased (t : List Event) : Bool := scopedAux t 0

/-- Sample parsed table with one 64-atom block (384 values). -/
def tbl1 : NDArray := ⟨[64, 6], List.replicate 384 0⟩

/-- Sample parsed table whose size is not a multiple of 384. -/
def tblBad : NDArray := ⟨[5], List.replicate 5 0⟩

/-- Sample valid 3 by 3 lattice. -/
def latEx : NDArray := ⟨[3, 3], List.replicate 9 0⟩

/-- Sample one-dimensional points array of length 2. -/
def pts1d : NDArray := ⟨[2], List.replicate 2 0⟩

/-- Sample points array of shape (2, 4). -/
def ptsBadDim : NDArray := ⟨[2, 4], List.replicate 8 0⟩

/-- Sample numbers array of length 2. -/
def nums2 : NDArray := ⟨[2], List.replicate 2 0⟩

/-- Sample numbers array of length 3. -/
def nums3 : NDArray := ⟨[3], List.replicate 3 0⟩

/-- Sample valid points array of shape (2, 3). -/
def pts23 : NDArray := ⟨[2, 3], List.replicate 6 0⟩

/-- Sample lattice array of the wrong shape (2, 2). -/
def latBad : NDArray := ⟨[2, 2], List.replicate 4 0⟩

/-- Sample force-constant oracle output with one entry per order. -/
def exampleFc : Nat → List (Val × List Nat) := fun _ => [(1, [2, 0])]

/-- Solver oracle on which every call succeeds. -/
def trivialOracle : SolverOracle :=
  ⟨.ok (), .ok (), .ok (⟨[0], []⟩, ⟨[0], []⟩), .ok (), .ok (), fun _ => []⟩

/-- A dataset constructed directly with mismatched array shapes. -/
def dfMismatch : DispForceDataset :=
  DispForceDataset.init ⟨[1], [0]⟩ ⟨[2], [0, 0]⟩

theorem tabulate_getElem? (n : Nat) (f : Nat → Val) (t : Nat) :
    (tabulate n f)[t]? = if t < n then some (f t) else none := by
  by_cases h : t < n
  · simp [tabulate, List.getElem?_range h, h]
  · simp [tabulate, h]
    omega

/-- C7: whenever the parsed flat table's total element count is not a
multiple of 384, `read_dataset` fails with the reshape error instead of
returning a dataset. -/
theorem read_dataset_reshape_failure (table : NDArray)
    (h : table.shape.prod % 384 ≠ 0) :
    read_dataset table = .error (.valueError "cannot reshape array into shape (-1,64,6)") := by
  simp [read_dataset, reshape646, NDArray.size, h]

theorem read_dataset_reshape_failure_witness :
    read_dataset tblBad = .error (.valueError "cannot reshape array into shape (-1,64,6)") :=
  read_dataset_reshape_failure tblBad (by decide)

/-- C8: the `.xz` suffix selects LZMA decompression, every other suffix the
plain byte stream, and for the same logical (decompressed) table content
both routes produce identical datasets. -/
theorem suffix_dispatch_same_dataset :
    selectMode ".xz" = StreamMode.lzma ∧
    (∀ s, s ≠ ".xz" → selectMode s = StreamMode.plain) ∧
    (∀ s₁ s₂ table, read_dataset_file s₁ table = read_dataset_file s₂ table) := by
  refine ⟨rfl, ?_, ?_⟩
  · intro s hs
    simp [selectMode, hs]
  · intro s₁ s₂ table
    simp only [read_dataset_file]
    cases selectMode s₁ <;> cases selectMode s₂ <;> rfl

theorem suffix_dispatch_same_dataset_witness :
    selectMode ".xz" = StreamMode.lzma ∧ selectMode ".txt" = StreamMode.plain ∧
    read_dataset_file ".xz" tbl1 = read_dataset_file ".txt" tbl1 :=
  ⟨suffix_dispatch_same_dataset.1,
   suffix_dispatch_same_dataset.2.1 ".txt" (by decide),
   suffix_dispatch_same_dataset.2.2 ".xz" ".txt" tbl1⟩

/-- C6: with `nbody` omitted, both `run` and `get_matrix_elements` configure
the solver with the body-order sequence `[2, 3, ..., maxorder + 1]`, that
is `[i + 2 for i in range(maxorder)]`. -/
theorem default_nbody_sequence (maxorder : Nat) (h : 1 ≤ maxorder) :
    (run_nbody maxorder none).length = maxorder ∧
    (∀ j, j < maxorder → (run_nbody maxorder none)[j]? = some (j + 2)) ∧
    get_matrix_elements_nbody maxorder none = run_nbody maxorder none ∧
    (run_nbody maxorder none).headD 0 = 2 := by
  refine ⟨by simp [run_nbody, defineNbody], ?_, rfl, ?_⟩
  · intro j hj
    simp [run_nbody, defineNbody, List.getElem?_range hj]
  · obtain ⟨m, rfl⟩ : ∃ m, maxorder = m + 1 := ⟨maxorder - 1, by omega⟩
    simp [run_nbody, defineNbody, List.range_succ_eq_map]

theorem default_nbody_sequence_witness :
    (run_nbody 2 none).length = 2 ∧ (run_nbody 2 none)[1]? = some 3 ∧
    get_matrix_elements_nbody 2 none = run_nbody 2 none := by
  have h := default_nbody_sequence 2 (by decide)
  exact ⟨h.1, h.2.1 1 (by decide), h.2.2.1⟩

/-- C9: in every execution of `get_matrix_elements` and of `run`, whatever
the solver calls return, each acquired solver handle is released before the
call returns or the error propagates, in well-nested order. -/
theorem solver_handle_scoped_release (s : SolverOracle) (natom maxorder : Nat) :
    (get_matrix_elements_tr s).2 = [Event.acquire, Event.release] ∧
    allHandlesReleased (get_matrix_elements_tr s).2 = true ∧
    ((run_tr s natom maxorder).2 = [Event.acquire, Event.release] ∨
      (run_tr s natom maxorder).2 =
        [Event.acquire, Event.release, Event.acquire, Event.release]) ∧
    allHandlesReleased (run_tr s natom maxorder).2 = true := by
  rcases s with ⟨dr, cr, mr, pr, sr, g⟩
  cases dr <;> cases cr <;> cases mr <;> cases pr <;> cases sr <;>
    refine ⟨rfl, rfl, ?_, rfl⟩ <;> first | exact Or.inl rfl | exact Or.inr rfl

/-- C10: when numbers and points have equal length but points is
one-dimensional, `CellDataset` construction fails with the out-of-range
access to `points.shape[1]` (an `IndexError`), which is none of the three
documented validation errors. -/
theorem points_one_dim_index_error (lattice points numbers : NDArray) (n : Nat)
    (hn : numbers.shape = [n]) (hp : points.shape = [n]) :
    CellDataset.init lattice points numbers =
      .error (.indexError "tuple index out of range") ∧
    (∀ m, PyError.indexError "tuple index out of range" ≠ PyError.runtimeError m) ∧
    (∀ m, PyError.indexError "tuple index out of range" ≠ PyError.typeError m) := by
  refine ⟨?_, fun m => by simp, fun m => by simp⟩
  simp [CellDataset.init, pyLen, shapeIdx, hn, hp]

theorem points_one_dim_index_error_witness :
    CellDataset.init latEx pts1d nums2 = .error (.indexError "tuple index out of range") ∧
    PyError.indexError "tuple index out of range" ≠
      PyError.runtimeError "Shapes of numbers and points are inconsistent." ∧
    PyError.indexError "tuple index out of range" ≠
      PyError.typeError "Shape of second dimension of points has to be 3." := by
  have h := points_one_dim_index_error latEx pts1d nums2 2 rfl rfl
  exact ⟨h.1, h.2.1 _, h.2.2 _⟩

/-- C5 counterexample: `DispForceDataset.init` performs no shape validation,
so a dataset whose displacements and forces have different shapes can be
constructed. -/
theorem dispforce_shape_invariant_counterexample :
    dfMismatch.displacements.shape ≠ dfMismatch.forces.shape := by
  decide

/-- C5 amended: every dataset produced by `read_dataset` has displacements
and forces of identical shape (the constructor itself does not check). -/
theorem read_dataset_output_shapes_match (table : NDArray) (ds : DispForceDataset)
    (h : read_dataset table = .ok ds) :
    ds.displacements.shape = ds.forces.shape := by
  unfold read_dataset reshape646 at h
  by_cases hc : table.size % 384 = 0
  · rw [if_pos hc] at h
    injection h with h
    subst h
    rfl
  · rw [if_neg hc] at h
    cases h

theorem read_dataset_output_shapes_match_witness :
    ∃ ds, read_dataset tbl1 = .ok ds ∧ ds.displacements.shape = ds.forces.shape :=
  ⟨_, rfl, read_dataset_output_shapes_match tbl1 _ rfl⟩

/-- C3: `CellDataset` construction succeeds exactly when numbers and points
have equal leading length, the second dimension of points is 3, and the
lattice shape is (3, 3); each single violation raises its own identifiable
error, and the three errors are pairwise distinct. -/
theorem cell_init_validation_iff (lattice points numbers : NDArray) :
    (exceptIsOk (CellDataset.init lattice points numbers) = true ↔
      ∃ n rest, numbers.shape.head? = some n ∧ points.shape = n :: 3 :: rest ∧
        lattice.shape = [3, 3]) ∧
    (∀ n m ns ps, numbers.shape = n :: ns → points.shape = m :: ps → n ≠ m →
      CellDataset.init lattice points numbers =
        .error (.runtimeError "Shapes of numbers and points are inconsistent.")) ∧
    (∀ n ns d ps, numbers.shape = n :: ns → points.shape = n :: d :: ps → d ≠ 3 →
      CellDataset.init lattice points numbers =
        .error (.typeError "Shape of second dimension of points has to be 3.")) ∧
    (∀ n ns ps, numbers.shape = n :: ns → points.shape = n :: 3 :: ps →
      lattice.shape ≠ [3, 3] →
      CellDataset.init lattice points numbers =
        .error (.typeError "Shape of lattice has to be (3, 3).")) ∧
    (PyError.runtimeError "Shapes of numbers and points are inconsistent." ≠
        PyError.typeError "Shape of second dimension of points has to be 3." ∧
      PyError.runtimeError "Shapes of numbers and points are inconsistent." ≠
        PyError.typeError "Shape of lattice has to be (3, 3)." ∧
      PyError.typeError "Shape of second dimension of points has to be 3." ≠
        PyError.typeError "Shape of lattice has to be (3, 3).") := by
  refine ⟨?_, ?_, ?_, ?_, by decide⟩
  · rcases hns : numbers.shape with _ | ⟨nN, ns⟩
    · simp [CellDataset.init, pyLen, hns, exceptIsOk]
    · rcases hps : points.shape with _ | ⟨nP, ps⟩
      · simp [CellDataset.init, pyLen, hns, hps, exceptIsOk]
      · by_cases hEq : nN = nP
        · subst hEq
          rcases ps with _ | ⟨d, ps2⟩
          · simp [CellDataset.init, pyLen, shapeIdx, hns, hps, exceptIsOk]
          · by_cases hd : d = 3
            · subst hd
              by_cases hl : lattice.shape = [3, 3]
              · simp [CellDataset.init, pyLen, shapeIdx, hns, hps, hl, exceptIsOk]
              · simp [CellDataset.init, pyLen, shapeIdx, hns, hps, hl, exceptIsOk]
            · simp [CellDataset.init, pyLen, shapeIdx, hns, hps, hd, exceptIsOk]
        · simp [CellDataset.init, pyLen, hns, hps, hEq, exceptIsOk]
          intro n hn
          omega
  · intro n m ns ps hn hp hne
    simp [CellDataset.init, pyLen, hn, hp, hne]
  · intro n ns d ps hn hp hd
    simp [CellDataset.init, pyLen, shapeIdx, hn, hp, hd]
  · intro n ns ps hn hp hl
    simp [CellDataset.init, pyLen, shapeIdx, hn, hp, hl]

theorem cell_init_validation_iff_witness :
    CellDataset.init latEx ptsBadDim nums2 =
      .error (.typeError "Shape of second dimension of points has to be 3.") ∧
    CellDataset.init latBad pts23 nums2 =
      .error (.typeError "Shape of lattice has to be (3, 3).") ∧
    CellDataset.init latEx pts23 nums3 =
      .error (.runtimeError "Shapes of numbers and points are inconsistent.") ∧
    exceptIsOk (CellDataset.init latEx pts23 nums2) = true := by
  refine ⟨?_, ?_, ?_, ?_⟩
  · exact (cell_init_validation_iff latEx ptsBadDim nums2).2.2.1 2 [] 4 [] rfl rfl (by decide)
  · exact (cell_init_validation_iff latBad pts23 nums2).2.2.2.1 2 [] [] rfl rfl (by decide)
  · exact (cell_init_validation_iff latEx pts23 nums3).2.1 3 2 [] [3] rfl rfl (by decide)
  · exact (cell_init_validation_iff latEx pts23 nums2).1.mpr ⟨2, [], rfl, rfl, rfl⟩

/-- C4: on a parsed flat table of shape (M*64, 6), `read_dataset` returns a
dataset whose displacements and forces have shape (M, 64, 3) and hold
columns 0-2 and 3-5 respectively of the reshaped (M, 64, 6) table. -/
theorem read_dataset_shapes_and_split (M : Nat) (table : NDArray)
    (hshape : table.shape = [M * 64, 6]) (hwf : table.data.length = table.shape.prod) :
    ∃ ds, read_dataset table = .ok ds ∧
      ds.displacements.shape = [M, 64, 3] ∧ ds.forces.shape = [M, 64, 3] ∧
      ∀ i j k, i < M → j < 64 → k < 3 →
        ds.displacements.data[i * 192 + j * 3 + k]? = table.data[(i * 64 + j) * 6 + k]? ∧
        ds.forces.data[i * 192 + j * 3 + k]? = table.data[(i * 64 + j) * 6 + (k + 3)]? := by
  have hsz : table.size = M * 384 := by
    simp [NDArray.size, hshape]
    ring
  have hmod : table.size % 384 = 0 := by omega
  have hdiv : table.size / 384 = M := by omega
  have hlen : table.data.length = M * 384 := by
    rw [hwf]
    simpa [NDArray.size] using hsz
  have hres : reshape646 table = .ok ⟨[M, 64, 6], table.data⟩ := by
    simp [reshape646, hmod, hdiv]
  refine ⟨DispForceDataset.init
      (sliceLastAxis ⟨[M, 64, 6], table.data⟩ 0 3)
      (sliceLastAxis ⟨[M, 64, 6], table.data⟩ 3 3), ?_, rfl, rfl, ?_⟩
  · simp [read_dataset, hres]
  · intro i j k hi hj hk
    have hb : i * 192 + j * 3 + k < M * 64 * 3 := by omega
    have hdivt : (i * 192 + j * 3 + k) / 3 = i * 64 + j := by omega
    have hmodt : (i * 192 + j * 3 + k) % 3 = k := by omega
    have hpos1 : (i * 64 + j) * 6 + k < table.data.length := by
      rw [hlen]
      omega
    have hpos2 : (i * 64 + j) * 6 + (3 + k) < table.data.length := by
      rw [hlen]
      omega
    constructor
    · show (tabulate (M * 64 * 3)
          (fun t => table.data.getD ((t / 3) * 6 + (0 + t % 3)) 0))[i * 192 + j * 3 + k]? = _
      rw [tabulate_getElem?, if_pos hb, hdivt, hmodt]
      simp only [Nat.zero_add]
      rw [List.getD_eq_getElem?_getD, List.getElem?_eq_getElem hpos1]
      simp
    · show (tabulate (M * 64 * 3)
          (fun t => table.data.getD ((t / 3) * 6 + (3 + t % 3)) 0))[i * 192 + j * 3 + k]? = _
      rw [tabulate_getElem?, if_pos hb, hdivt, hmodt]
      rw [List.getD_eq_getElem?_getD, List.getElem?_eq_getElem hpos2]
      rw [show (i * 64 + j) * 6 + (k + 3) = (i * 64 + j) * 6 + (3 + k) by omega]
      rw [List.getElem?_eq_getElem hpos2]
      simp

set_option maxRecDepth 8192 in
theorem read_dataset_shapes_and_split_witness :
    ∃ ds, read_dataset tbl1 = .ok ds ∧
      ds.displacements.shape = [1, 64, 3] ∧ ds.forces.shape = [1, 64, 3] ∧
      ∀ i j k, i < 1 → j < 64 → k < 3 →
        ds.displacements.data[i * 192 + j * 3 + k]? = tbl1.data[(i * 64 + j) * 6 + k]? ∧
        ds.forces.data[i * 192 + j * 3 + k]? = tbl1.data[(i * 64 + j) * 6 + (k + 3)]? :=
  read_dataset_shapes_and_split 1 tbl1 rfl (by decide)

theorem npWhereFrom_head? (v : Nat) (xs : List Nat) :
    ∀ n, (((xs.enumFrom n).filter (fun p => p.2 == v)).map Prod.fst).head? =
      (findSlot xs v).map (fun i => i + n) := by
  induction xs with
  | nil =>
      intro n
      rfl
  | cons a rest ih =>
      intro n
      by_cases h : a = v
      · simp [findSlot, h]
      · have hbeq : (a == v) = false := by
          simp [h]
        rcases hf : findSlot rest v with _ | i
        · have hrec := ih (n + 1)
          rw [hf] at hrec
          simp only [List.enumFrom_cons, List.filter_cons, hbeq]
          simp only [Option.map_none'] at hrec
          simp [findSlot, hbeq, hf, hrec]
        · have hrec := ih (n + 1)
          rw [hf] at hrec
          simp only [List.enumFrom_cons, List.filter_cons, hbeq]
          simp only [Option.map_some'] at hrec
          simp [findSlot, hbeq, hf, hrec]
          omega

theorem npWhereEq_head? (xs : List Nat) (v : Nat) :
    (npWhereEq xs v).head? = findSlot xs v := by
  have h := npWhereFrom_head? v xs 0
  simpa [npWhereEq, List.enum] using h

theorem writeFcEntry_eq_specStep (natom : Nat) (fc : NDArray) (e : Val × List Nat) :
    writeFcEntry (List.range natom) fc e = specStep natom fc e := by
  have h := npWhereEq_head? (List.range natom) ((e.2.map (fun i => i / 3)).headD 0)
  unfold writeFcEntry specStep
  rcases hw : npWhereEq (List.range natom) ((e.2.map (fun i => i / 3)).headD 0)
      with _ | ⟨i0, rest⟩
  · rw [hw] at h
    simp only [List.head?_nil] at h
    rw [← h]
  · rw [hw] at h
    simp only [List.head?_cons] at h
    rw [← h]

theorem writeFcEntry_shape (al : List Nat) (fc : NDArray) (e : Val × List Nat) :
    (writeFcEntry al fc e).shape = fc.shape := by
  unfold writeFcEntry
  cases hw : npWhereEq al ((e.2.map (fun i => i / 3)).headD 0) with
  | nil => rfl
  | cons i0 rest => rfl

theorem foldl_writeFcEntry_shape (al : List Nat) (l : List (Val × List Nat)) :
    ∀ fc : NDArray, (l.foldl (writeFcEntry al) fc).shape = fc.shape := by
  induction l with
  | nil =>
      intro fc
      rfl
  | cons e rest ih =>
      intro fc
      rw [List.foldl_cons, ih, writeFcEntry_shape]

/-- C1: for every atom count and every maxorder at least 1, the extraction
that `run` performs yields one tensor per order; the order-k tensor starts
as the dense zero tensor of shape `(N,) + (N,)*k + (3,)*(k+1)` and is
filled exactly as the specification's reindexing step describes: decode
each flat index `i` into atom `i / 3` and component `i % 3`, search the
leading-atom list for the first decoded atom index, silently skip entries
with no match, and otherwise write the value at the matched leading slot
followed by the remaining atom indices and all k+1 components.  Moreover
`run` either returns exactly this extraction or propagates an error. -/
theorem extract_fc_matches_spec_reindexing (natom maxorder : Nat)
    (get_fc : Nat → List (Val × List Nat)) (h : 1 ≤ maxorder) :
    (_extract_fc_from_alm natom maxorder get_fc).length = maxorder ∧
    (∀ k, 1 ≤ k → k ≤ maxorder →
      (_extract_fc_from_alm natom maxorder get_fc)[k - 1]? =
        some ((get_fc k).foldl (specStep natom)
          (zerosArr (natom :: (List.replicate k natom ++ List.replicate (k + 1) 3))))) ∧
    (∀ s : SolverOracle, s.get_fc = get_fc →
      (run_tr s natom maxorder).1 = .ok (_extract_fc_from_alm natom maxorder get_fc) ∨
      ∃ e, (run_tr s natom maxorder).1 = .error e) := by
  refine ⟨by simp [_extract_fc_from_alm], ?_, ?_⟩
  · intro k hk1 hk2
    have hlt : k - 1 < maxorder := by omega
    have hstep : writeFcEntry (List.range natom) = specStep natom := by
      funext fc e
      exact writeFcEntry_eq_specStep natom fc e
    simp only [_extract_fc_from_alm, List.getElem?_map, List.getElem?_range hlt,
      Option.map_some']
    rw [hstep, List.length_range]
    have hk : k - 1 + 1 = k := by omega
    rw [hk]
  · intro s hs
    rcases s with ⟨dr, cr, mr, pr, sr, g⟩
    simp only at hs
    subst hs
    cases dr <;> cases cr <;> cases mr <;> cases pr <;> cases sr <;>
      first
        | (right; exact ⟨_, rfl⟩)
        | (left; rfl)

theorem extract_fc_matches_spec_reindexing_witness :
    (_extract_fc_from_alm 1 1 exampleFc).length = 1 ∧
    (_extract_fc_from_alm 1 1 exampleFc)[0]? =
      some ((exampleFc 1).foldl (specStep 1)
        (zerosArr (1 :: (List.replicate 1 1 ++ List.replicate 2 3)))) := by
  have h := extract_fc_matches_spec_reindexing 1 1 exampleFc (by decide)
  exact ⟨h.1, h.2.1 1 (by decide) (by decide)⟩

/-- C2 counterexample: with one atom and a successful solve, `run` with
maxorder 2 returns tensors of shapes (1, 1, 3, 3) and (1, 1, 1, 3, 3, 3),
so the claimed shapes (N, 3, 3) and (N, N, 3, 3, 3) are wrong. -/
theorem run_first_tensor_shape_counterexample :
    runShapes trivialOracle 1 2 = some [[1, 1, 3, 3], [1, 1, 1, 3, 3, 3]] ∧
    runShapes trivialOracle 1 2 ≠ some [[1, 3, 3], [1, 1, 3, 3, 3]] := by
  constructor
  · rfl
  · intro hcontra
    rw [show runShapes trivialOracle 1 2 = some [[1, 1, 3, 3], [1, 1, 1, 3, 3, 3]] from rfl]
      at hcontra
    simp at hcontra

/-- C2 amended: for every structure with atom count N, a successful `run`
with maxorder 2 returns exactly 2 tensors, the first of shape (N, N, 3, 3)
and the second of shape (N, N, N, 3, 3, 3). -/
theorem run_maxorder_two_tensor_shapes (s : SolverOracle) (natom : Nat)
    (fcs : List NDArray) (h : (run_tr s natom 2).1 = .ok fcs) :
    fcs.length = 2 ∧
    (fcs[0]?).map NDArray.shape = some [natom, natom, 3, 3] ∧
    (fcs[1]?).map NDArray.shape = some [natom, natom, natom, 3, 3, 3] := by
  have hfcs : fcs = _extract_fc_from_alm natom 2 s.get_fc := by
    rcases s with ⟨dr, cr, mr, pr, sr, g⟩
    cases dr <;> cases cr <;> cases mr <;> cases pr <;> cases sr <;>
      first
        | exact Except.noConfusion h
        | (injection h with h; exact h.symm)
  subst hfcs
  refine ⟨rfl, ?_, ?_⟩
  · simp only [_extract_fc_from_alm, List.getElem?_map,
      List.getElem?_range (by decide : (0 : Nat) < 2), Option.map_some']
    rw [foldl_writeFcEntry_shape]
    simp [zerosArr]
  · simp only [_extract_fc_from_alm, List.getElem?_map,
      List.getElem?_range (by decide : (1 : Nat) < 2), Option.map_some']
    rw [foldl_writeFcEntry_shape]
    simp [zerosArr]

theorem run_maxorder_two_tensor_shapes_witness :
    ∃ fcs, (run_tr trivialOracle 1 2).1 = .ok fcs ∧ fcs.length = 2 ∧
      (fcs[0]?).map NDArray.shape = some [1, 1, 3, 3] ∧
      (fcs[1]?).map NDArray.shape = some [1, 1, 1, 3, 3, 3] :=
  ⟨_, rfl, run_maxorder_two_tensor_shapes trivialOracle 1 _ rfl⟩
